import Mathlib

/-!
# Verification of the WildDuck IMAP handler (`src/imap.js`)

Shallow embedding of the command handlers in `src/imap.js`:
STORE (`server.onStore`), EXPUNGE (`server.onExpunge`), COPY (`server.onCopy`),
FETCH (`server.onFetch`), SEARCH (`server.onSearch`) and AUTH (`server.onAuth`).

Documents are embedded as Lean structures, MongoDB cursors as Lean lists, the
callback-chained loops (`processNext`) as structural recursion, and the few
collaborators that are not part of `src/` (the journal notifier's
`addEntries`) as definitions marked `Modelled from the spec:`.
-/

/-! ## JS string helpers

`String.prototype.toLowerCase().trim()` is used throughout `onStore` for
case-insensitive flag comparison.  We embed it over `String.data` so that the
kernel can evaluate it.  JS `trim` strips Unicode whitespace; the flags that
reach these code paths are ASCII, so ASCII whitespace suffices here. -/

def jsIsSpace (c : Char) : Bool :=
  c == ' ' || c == '\t' || c == '\n' || c == '\r'

def jsTrimChars (cs : List Char) : List Char :=
  ((cs.dropWhile jsIsSpace).reverse.dropWhile jsIsSpace).reverse

/-- JS `s.trim()`. -/
def jsTrim (s : String) : String :=
  ⟨jsTrimChars s.data⟩

/-- JS `s.toLowerCase().trim()` (ASCII lowering, as used on IMAP flags). -/
def jsLowerTrim (s : String) : String :=
  ⟨jsTrimChars (s.data.map Char.toLower)⟩

/-! ## Data model (documents of the `messages` / `mailboxes` collections) -/

/-- A document of the `messages` collection, restricted to the fields that
`src/imap.js` reads or writes.  `mid` stands for Mongo's `_id`;
`metaSource` for `meta.source`; `headers` is the `{key, value}` array;
`internaldate`/`headerdate` are embedded as their millisecond timestamps. -/
structure Message where
  mid : Nat
  mailbox : Nat
  uid : Nat
  modseq : Nat
  flags : List String
  seen : Bool
  flagged : Bool
  deleted : Bool
  size : Nat
  metaSource : String
  internaldate : Int
  headerdate : Int
  headers : List (String × String)
deriving DecidableEq, Repr

/-- A document of the `mailboxes` collection (the fields used here). -/
structure Mailbox where
  mbid : Nat
  user : Nat
  path : String
  uidValidity : Nat
  uidNext : Nat
  modifyIndex : Nat
  flags : List String
deriving DecidableEq, Repr

/-- A journal entry as built by the handlers and handed to
`this.notifier.addEntries`: plain JS objects with `command`, optional
`ignore`, `uid`, optional `flags` and `message` fields, and no `modseq` yet. -/
structure JournalDraft where
  command : String
  ignore : Option Nat
  uid : Nat
  flags : Option (List String)
  message : Nat
deriving DecidableEq, Repr

/-- A persisted journal entry: a draft plus the `modseq` the notifier stamps
onto it. -/
structure JournalEntry where
  command : String
  ignore : Option Nat
  uid : Nat
  flags : Option (List String)
  message : Nat
  modseq : Nat
deriving DecidableEq, Repr

def JournalDraft.withModseq (d : JournalDraft) (ms : Nat) : JournalEntry :=
  ⟨d.command, d.ignore, d.uid, d.flags, d.message, ms⟩

/-! ## STORE (`server.onStore`, src/imap.js lines 479-738) -/

/-- The three STORE actions (`update.action`). -/
inductive StoreAction where
  | set
  | add
  | remove
deriving DecidableEq, Repr

/-- The `update` argument of `onStore`.  In JS, `unchangedSince` is absent or a
number; `onStore` tests it with `if (update.unchangedSince)`, i.e. by JS
truthiness, so `0` and "absent" coincide and we embed it as a `Nat`. -/
structure StoreUpdate where
  messages : List Nat
  action : StoreAction
  value : List String
  silent : Bool
  isUid : Bool
  unchangedSince : Nat
deriving DecidableEq, Repr

/-- The `$set` fragment that `onStore` attaches to an `$addToSet`/`$pull`
update for the denormalized booleans.  `none` means the field is not written. -/
structure DenormSet where
  seen : Option Bool
  flagged : Option Bool
  deleted : Option Bool
deriving DecidableEq, Repr

/-- The `flagsupdate` query object of `onStore`: either the `set` case's
`$set {flags, seen, flagged, deleted}`, the `add` case's
`$addToSet {flags: {$each: newFlags}}` + `$set`, or the `remove` case's
`$pull {flags: {$in: oldFlags}}` + `$set`. -/
inductive FlagsUpdate where
  | setAll (flags : List String) (seen flagged deleted : Bool)
  | addTo (each : List String) (dset : DenormSet)
  | pullFrom (old : List String) (dset : DenormSet)
deriving DecidableEq, Repr

/-- The `$set` object built in the `add`/`remove` branches of `onStore`
(lines 617-634 and 662-679).  The JS code initializes `flagsupdate.$set = {}`
and then, for each of `\Seen`/`\Flagged`/`\Deleted` present, assigns
`flagsupdate.$set = {seen: b}` (resp. `flagged`, `deleted`) — each assignment
replaces the whole object, which this definition mirrors with the shadowed
`let s := ...` rebindings.  `b` is `true` in the `add` branch and `false` in
the `remove` branch; the two branches are otherwise textually identical. -/
def storeDenormOverwrite (fl : List String) (b : Bool) : DenormSet :=
  if fl.contains "\\Seen" || fl.contains "\\Flagged" || fl.contains "\\Deleted" then
    let s : DenormSet := ⟨none, none, none⟩
    let s := if fl.contains "\\Seen" then (⟨some b, none, none⟩ : DenormSet) else s
    let s := if fl.contains "\\Flagged" then (⟨none, some b, none⟩ : DenormSet) else s
    let s := if fl.contains "\\Deleted" then (⟨none, none, some b⟩ : DenormSet) else s
    s
  else ⟨none, none, none⟩

/-- Result of the per-message `switch (update.action)` block of `onStore`:
the `updated` flag, the in-memory `message.flags` after the block (used for
the untagged FETCH response and the journal entry), and the `flagsupdate`
query object (`none` embeds the initial JS value `false`). -/
structure StoreResult where
  updated : Bool
  memFlags : List String
  flagsupdate : Option FlagsUpdate
deriving DecidableEq, Repr

/-- The `switch (update.action)` block of `onStore` (lines 564-683), acting on
one cursor row `m` with the command's `value` list. -/
def storeMessageResult (action : StoreAction) (value : List String) (m : Message) :
    StoreResult :=
  let existingFlags := m.flags.map jsLowerTrim
  match action with
  | .set =>
    let updated :=
      existingFlags.length != value.length ||
        (value.filter (fun flag => !(existingFlags.contains (jsLowerTrim flag)))).length != 0
    let memFlags := value
    ⟨updated, memFlags,
      if updated then
        some (.setAll memFlags (memFlags.contains "\\Seen") (memFlags.contains "\\Flagged")
          (memFlags.contains "\\Deleted"))
      else none⟩
  | .add =>
    let newFlags := value.filter (fun flag => !(existingFlags.contains (jsLowerTrim flag)))
    let updated := newFlags.length != 0
    let memFlags := m.flags ++ newFlags
    ⟨updated, memFlags,
      if updated then some (.addTo newFlags (storeDenormOverwrite newFlags true)) else none⟩
  | .remove =>
    let flagsUpdates := value.map jsLowerTrim
    let oldFlags := m.flags.filter (fun flag => flagsUpdates.contains (jsLowerTrim flag))
    let memFlags := m.flags.filter (fun flag => !(flagsUpdates.contains (jsLowerTrim flag)))
    let updated := oldFlags.length != 0
    ⟨updated, memFlags,
      if updated then some (.pullFrom oldFlags (storeDenormOverwrite oldFlags false)) else none⟩

/-- Mongo `$addToSet {flags: {$each: newFlags}}`: append each element that is
not already present (by exact equality). -/
def addToSetEach (flags newFlags : List String) : List String :=
  newFlags.foldl (fun acc f => if acc.contains f then acc else acc ++ [f]) flags

/-- Apply a `DenormSet` fragment to a message document. -/
def applyDenorm (ds : DenormSet) (m : Message) : Message :=
  { m with
    seen := ds.seen.getD m.seen
    flagged := ds.flagged.getD m.flagged
    deleted := ds.deleted.getD m.deleted }

/-- Apply one `flagsupdate` query object to a message document, following
Mongo update semantics (`$set`, `$addToSet $each`, `$pull $in`). -/
def applyUpdate : FlagsUpdate → Message → Message
  | .setAll fl s f d, m => { m with flags := fl, seen := s, flagged := f, deleted := d }
  | .addTo each ds, m => applyDenorm ds { m with flags := addToSetEach m.flags each }
  | .pullFrom old ds, m =>
      applyDenorm ds { m with flags := m.flags.filter (fun f => !(old.contains f)) }

/-- One line `session.writeStream.write(session.formatResponse('FETCH',
message.uid, {uid: update.isUid ? message.uid : false, flags}))`:
the MSN-resolving uid, the optional `UID` item, and the flag list. -/
structure FetchLine where
  uid : Nat
  uidShown : Option Nat
  flags : List String
deriving DecidableEq, Repr

/-- Accumulated observable effects of the `processNext` loop of `onStore`:
the untagged FETCH lines written to this session, the queued `bulkWrite`
update entries (`updateEntries`), and the queued journal drafts
(`notifyEntries`).  The 150-entry bulk batching only affects when the
accumulators are flushed, not their total contents or order, so the model
accumulates them whole. -/
structure StoreOutput where
  responses : List FetchLine
  updates : List (Nat × FlagsUpdate)
  notify : List JournalDraft
deriving DecidableEq, Repr

/-- The `processNext` cursor loop of `onStore` (lines 555-736), over the list
of rows the query returned, in cursor order. -/
def processStore (sid : Nat) (u : StoreUpdate) : List Message → StoreOutput
  | [] => ⟨[], [], []⟩
  | m :: rest =>
    let r := storeMessageResult u.action u.value m
    let out := processStore sid u rest
    ⟨(if u.silent then [] else
        [⟨m.uid, if u.isUid then some m.uid else none, r.memFlags⟩]) ++ out.responses,
      (if r.updated then
        [(m.mid, r.flagsupdate.getD (.setAll [] false false false))] else []) ++ out.updates,
      (if r.updated then
        [⟨"FETCH", some sid, m.uid, some r.memFlags, m.mid⟩] else []) ++ out.notify⟩

/-- The message query of `onStore` (lines 494-511): `uid ∈ update.messages`
within the mailbox, and additionally `modseq ≤ update.unchangedSince` when
`update.unchangedSince` is truthy (nonzero). -/
def storeQueryMatches (mbid : Nat) (u : StoreUpdate) (m : Message) : Bool :=
  if u.unchangedSince != 0 then
    m.mailbox == mbid && decide (m.modseq ≤ u.unchangedSince) &&
      u.messages.contains m.uid
  else
    m.mailbox == mbid && u.messages.contains m.uid

/-! ### The cursor sort `.sort([['uid', 1]])` -/

/-- Insertion step for sorting cursor rows by ascending `uid`. -/
def insertByUid (m : Message) : List Message → List Message
  | [] => [m]
  | x :: xs => if m.uid ≤ x.uid then m :: x :: xs else x :: insertByUid m xs

/-- `.sort([['uid', 1]])` on a cursor: ascending-uid insertion sort. -/
def sortByUid : List Message → List Message
  | [] => []
  | m :: ms => insertByUid m (sortByUid ms)

/-- Applying the queued `bulkWrite` entries to one message document:
`updateOne {filter: {_id}, update: flagsupdate}` picks the first entry whose
filter matches. -/
def applyOneUpdate (ups : List (Nat × FlagsUpdate)) (m : Message) : Message :=
  match ups.find? (fun p => p.1 == m.mid) with
  | some p => applyUpdate p.2 m
  | none => m

/-! ### The notifier (`this.notifier.addEntries` / `fire`)

`ImapNotifier` lives in `lib/imap-notifier.js`, which is not part of `src/`.
Its behaviour is modelled from the spec. -/

/-- Modelled from the spec: `ImapNotifier.addEntries` (missing from `src/`;
spec §4.3 and §4.5 STORE steps 2-3, data-model invariant 3).  Persisting a
batch of journal drafts assigns each one a fresh
`modseq = atomic_increment(mailbox.modifyIndex)`, so the drafts receive the
consecutive values `modifyIndex + 1, modifyIndex + 2, ...` in order, and the
mailbox's `modifyIndex` ends at `modifyIndex + length`.  Returns the new
`modifyIndex` and the stamped entries. -/
def addEntriesModel (mi : Nat) : List JournalDraft → Nat × List JournalEntry
  | [] => (mi, [])
  | d :: ds =>
    let rest := addEntriesModel (mi + 1) ds
    (rest.1, d.withModseq (mi + 1) :: rest.2)

/-- Modelled from the spec: the notifier also persists each stamped entry's
`modseq` onto the message document it refers to (spec §4.5 STORE step 2
"persist flag change", data-model invariant 3 relating `message.modseq` to
`mailbox.modifyIndex`).  The write list pairs `message._id` with the fresh
modseq. -/
def notifierModseqWrites (entries : List JournalEntry) : List (Nat × Nat) :=
  entries.map (fun e => (e.message, e.modseq))

/-- Modelled from the spec: §4.3/§4.4 — when a session drains the journal it
receives exactly the entries whose `ignore` field differs from its own
session id; an entry without `ignore` is delivered to every session. -/
def deliversTo (sid : Nat) (ignore : Option Nat) : Bool :=
  ignore != some sid

/-! ## COPY (`server.onCopy`, src/imap.js lines 851-991) -/

/-- Observable outcome of a successful `onCopy` run: the `COPYUID` data the
callback returns (`uidValidity`, `sourceUid`, `destinationUid`), the target
mailbox's final `uidNext`, the inserted copies in insertion order, the
`EXISTS` journal drafts in append order, the quota `$inc` operations applied
to the user document, and the callback status. -/
structure CopyOutput where
  uidValidity : Nat
  sourceUid : List Nat
  destinationUid : List Nat
  uidNext : Nat
  inserted : List Message
  journal : List JournalDraft
  copiedStorage : Nat
  quotaOps : List Int
  result : Bool
deriving DecidableEq, Repr

/-- The closure state of the `processNext` loop of `onCopy`: the `sourceUid`
and `destinationUid` accumulators, the target's live `uidNext`, the
`copiedMessages`/`copiedStorage` counters, the inserted copies and the
appended journal drafts. -/
structure CopyLoopOut where
  sourceUid : List Nat
  destinationUid : List Nat
  uidNext : Nat
  copied : Nat
  storage : Nat
  inserted : List Message
  journal : List JournalDraft
deriving DecidableEq, Repr

/-- The `processNext` loop of `onCopy` (lines 903-987).  The accumulator
parameters are the closure variables `sourceUid`, `destinationUid` (built
with `unshift`, i.e. prepend), the target's live `uidNext`, and the counters
`copiedMessages`/`copiedStorage`.  Each step performs
`findOneAndUpdate({_id: target}, {$inc: {uidNext: 1}})`, which returns the
pre-increment document, so the allocated uid is the old `uidNext`; the copy
is inserted with a fresh `_id` (embedded as `newIdBase + copiedMessages`),
`mailbox = target`, `uid` = the allocated uid and `meta.source = 'IMAPCOPY'`;
an `EXISTS` journal draft without `ignore` is appended. -/
def copyLoop (targetId newIdBase : Nat) (sourceUid destinationUid : List Nat)
    (uidNext copied storage : Nat) (inserted : List Message)
    (journal : List JournalDraft) : List Message → CopyLoopOut
  | [] => ⟨sourceUid, destinationUid, uidNext, copied, storage, inserted, journal⟩
  | m :: rest =>
    let sourceUid := m.uid :: sourceUid
    let allocated := uidNext
    let destinationUid := allocated :: destinationUid
    let copyMsg := { m with
      mid := newIdBase + copied
      mailbox := targetId
      uid := allocated
      metaSource := "IMAPCOPY" }
    copyLoop targetId newIdBase sourceUid destinationUid (uidNext + 1) (copied + 1)
      (storage + m.size) (inserted ++ [copyMsg])
      (journal ++ [⟨"EXISTS", none, copyMsg.uid, none, copyMsg.mid⟩]) rest

/-- A successful `onCopy` run over the source messages: cursor =
`find({mailbox: source, uid: {$in: update.messages}}).sort([['uid', 1]])`,
then the copy loop, then `updateQuota` (a single
`$inc {storageUsed: copiedStorage}` iff at least one message was copied) and
`callback(null, true, {uidValidity, sourceUid, destinationUid})`. -/
def onCopyRun (srcId : Nat) (target : Mailbox) (newIdBase : Nat)
    (msgs : List Message) (uidSet : List Nat) : CopyOutput :=
  let cursor := sortByUid (msgs.filter (fun m =>
    m.mailbox == srcId && uidSet.contains m.uid))
  let lo := copyLoop target.mbid newIdBase [] [] target.uidNext 0 0 [] [] cursor
  ⟨target.uidValidity, lo.sourceUid, lo.destinationUid, lo.uidNext, lo.inserted,
    lo.journal, lo.storage,
    (if lo.copied == 0 then [] else [(lo.storage : Int)]), true⟩

/-! ## EXPUNGE (`server.onExpunge`, src/imap.js lines 740-849) -/

/-- Partial results of the `processNext` loop of `onExpunge`: the EXPUNGE
responses written to this session (the uid handed to
`session.formatResponse('EXPUNGE', message.uid)`), the ids of the deleted
documents, the `deletedMessages` / `deletedStorage` counters, and the
`EXPUNGE` journal drafts. -/
structure ExpungeLoopOut where
  responses : List Nat
  deletedMids : List Nat
  deletedMessages : Nat
  deletedStorage : Nat
  journal : List JournalDraft
deriving DecidableEq, Repr

/-- The `processNext` loop of `onExpunge` (lines 782-845), over the cursor of
messages with `deleted = true`, in cursor order. -/
def expungeLoop (sid : Nat) (silent : Bool) : List Message → ExpungeLoopOut
  | [] => ⟨[], [], 0, 0, []⟩
  | m :: rest =>
    let out := expungeLoop sid silent rest
    ⟨(if silent then [] else [m.uid]) ++ out.responses,
      m.mid :: out.deletedMids,
      out.deletedMessages + 1,
      m.size + out.deletedStorage,
      ⟨"EXPUNGE", some sid, m.uid, none, m.mid⟩ :: out.journal⟩

/-- Observable outcome of a successful `onExpunge` run. -/
structure ExpungeOutput where
  responses : List Nat
  journal : List JournalDraft
  quotaOps : List Int
  storageUsedAfter : Int
  mailboxAfter : Mailbox
  messagesAfter : List Message
  result : Bool
deriving DecidableEq, Repr

/-- A successful `onExpunge` run: cursor =
`find({mailbox, deleted: true}).sort([['uid', 1]])`; each row is deleted and
journalled; `updateQuota` then applies a single
`$inc {storageUsed: -deletedStorage}` iff `deletedMessages > 0`; finally the
attachment sweep (`attachments.files.deleteMany({'metadata.messages':
{$size: 0}})`) runs and its error, if any, is ignored (`sweepFails` does not
influence anything), and the handler calls `callback(null, true)`.
`onExpunge` never writes the mailbox document, so `mailboxAfter = mb`. -/
def onExpungeRun (sid : Nat) (silent sweepFails : Bool) (mb : Mailbox)
    (storageUsed0 : Int) (msgs : List Message) : ExpungeOutput :=
  let cursor := sortByUid (msgs.filter (fun m => m.mailbox == mb.mbid && m.deleted))
  let lo := expungeLoop sid silent cursor
  let quotaOps : List Int :=
    if lo.deletedMessages == 0 then [] else [-(lo.deletedStorage : Int)]
  ⟨lo.responses, lo.journal, quotaOps, storageUsed0 + quotaOps.sum, mb,
    msgs.filter (fun m => !(lo.deletedMids.contains m.mid)),
    (if sweepFails then true else true)⟩

/-! ## FETCH (`server.onFetch`, src/imap.js lines 1023-1195) -/

/-- Observable outcome of the `processNext` loop of `onFetch`: the raw
`session.socket.write` calls, whether `session.socket.destroy()` was called,
the uids whose FETCH response streaming was started (in order), the queued
`\Seen` journal drafts, and the loop's final callback value (`none` embeds
`done(err)` after a stream error, `some true` embeds `done(null, true)`). -/
structure FetchOutput where
  socketWrites : List String
  socketDestroyed : Bool
  streamedUids : List Nat
  notify : List JournalDraft
  result : Option Bool
deriving DecidableEq, Repr

/-- The `processNext` loop of `onFetch` (lines 1102-1191).  `streamErrs uid`
says whether compiling/streaming the FETCH response for that row raises a
stream error.  On a stream error the handler writes the raw string
`'INTERNAL ERROR\n'` to the socket, destroys the socket, closes the cursor
and finishes with `done(err)` — no further rows are processed.  Otherwise,
when `options.markAsSeen` is set and the row lacks `\Seen`, the in-memory
flags get `\Seen` prepended (`unshift`) and an update plus a `FETCH` journal
draft with `ignore = session.id` are queued. -/
def processFetch (sid : Nat) (markAsSeen : Bool) (streamErrs : Nat → Bool) :
    List Message → FetchOutput
  | [] => ⟨[], false, [], [], some true⟩
  | m :: rest =>
    let markThis := markAsSeen && !(m.flags.contains "\\Seen")
    let mflags := if markThis then "\\Seen" :: m.flags else m.flags
    if streamErrs m.uid then
      ⟨["INTERNAL ERROR\n"], true, [m.uid], [], none⟩
    else
      let out := processFetch sid markAsSeen streamErrs rest
      ⟨out.socketWrites, out.socketDestroyed, m.uid :: out.streamedUids,
        (if markThis then [⟨"FETCH", some sid, m.uid, some mflags, m.mid⟩] else [])
          ++ out.notify,
        out.result⟩

/-- Formalization of the claim's words (not of the source): an untagged BYE
response line is a line beginning with `* BYE`. -/
def spec_isUntaggedBye (s : String) : Bool :=
  "* BYE".data.isPrefixOf s.data

/-! ## SEARCH (`server.onSearch`, src/imap.js lines 1203-1520) -/

/-- Comparison operators recognized by the `internaldate`/`headerdate`/`size`
cases of `walkQuery` (`term.operator`); any other operator value leaves `op`
at its default. -/
inductive CmpOp where
  | lt
  | le
  | gt
  | ge
deriving DecidableEq, Repr

/-- A Mongo comparison selector (`$eq`, `$lt`, ...). -/
inductive MongoCmp where
  | eq
  | lt
  | le
  | gt
  | ge
deriving DecidableEq, Repr

/-- The parsed IMAP SEARCH criteria tree as consumed by `walkQuery`
(`term.key` dispatch).  Dates are embedded as the parsed
`new Date(term.value + ' GMT').getTime()` millisecond values;
`uidSet`/`uidOne` split the JS `Array.isArray(term.value)` test. -/
inductive SearchTerm where
  | all
  | tnot (value : List SearchTerm)
  | tor (value : List (List SearchTerm))
  | text (value : String)
  | body (value : String)
  | modseqT (value : Nat)
  | uidSet (value : List Nat)
  | uidOne (value : Nat)
  | flagT (value : String) (exists_ : Bool)
  | headerT (hdr : String) (value : String)
  | internaldateT (operator : Option CmpOp) (value : Int)
  | headerdateT (operator : Option CmpOp) (value : Int)
  | sizeT (operator : Option CmpOp) (value : Nat)

/-- One condition object pushed onto a `parent` array by `walkQuery`.
For the `header` case the JS escapes every regex metacharacter in the value
and uses it as a case-insensitive `$regex`, which is exactly a
case-insensitive substring match on the literal value, embedded here as the
pattern string.  For a date term without operator the JS pushes
`{field: [{$gte: v}, {$lt: v + 24h}]}`; it is embedded as the intended day
range (no claim depends on date terms). -/
inductive Cond where
  | orCond (branches : List Cond)
  | textSearch (s : String)
  | modseqGe (v : Nat)
  | modseqLt (v : Nat)
  | uidIn (vs : List Nat)
  | uidNin (vs : List Nat)
  | uidEq (v : Nat)
  | uidNe (v : Nat)
  | boolField (field : String) (b : Bool)
  | flagsEq (v : String)
  | flagsNe (v : String)
  | headerElem (key : String) (pat : String) (negated : Bool)
  | headerKeyEq (key : String)
  | headerKeyNe (key : String)
  | internaldateCmp (o : CmpOp) (v : Int) (negated : Bool)
  | internaldateDay (v : Int) (negated : Bool)
  | headerdateCmp (o : CmpOp) (v : Int) (negated : Bool)
  | headerdateDay (v : Int) (negated : Bool)
  | sizeCond (o : MongoCmp) (v : Nat) (negated : Bool)

/-- One `{uidList, highestModseq}` object passed to the `onSearch` callback. -/
structure SearchPayload where
  uidList : List Nat
  highestModseq : Nat
deriving DecidableEq, Repr

/-- The closure state shared by all recursive `walkQuery` invocations:
`hasAll`, `nothing`, and the callback invocations already made (the JS
`return callback({uidList: [], highestModseq: 0})` in the empty-uid-set case
only returns from the `forEach` lambda, so it fires the callback and walking
continues — `calls` records those firings in order). -/
structure WalkState where
  hasAll : Bool
  nothing : Bool
  calls : List SearchPayload
deriving DecidableEq, Repr

/-- JS `s.toLowerCase().substr(1)` as used on the system-flag values. -/
def jsLowerSubstr1 (s : String) : String :=
  ⟨(s.data.map Char.toLower).drop 1⟩

mutual

/-- `walkQuery(parent, ne, node)` (lines 1224-1471): the entry guard
`if (hasAll || nothing) return;` followed by the `node.forEach` dispatch.
Returns the updated closure state and the conditions pushed onto `parent`,
in push order. -/
def walkQuery (ne : Bool) (st : WalkState) (node : List SearchTerm) :
    WalkState × List Cond :=
  if st.hasAll || st.nothing then (st, []) else walkNode ne st node

/-- The `node.forEach(term => ...)` loop: terms of one node are processed
unconditionally (the guard is only re-checked on nested `walkQuery` calls). -/
def walkNode (ne : Bool) (st : WalkState) : List SearchTerm → WalkState × List Cond
  | [] => (st, [])
  | t :: ts =>
    let r1 := walkTerm ne st t
    let r2 := walkNode ne r1.1 ts
    (r2.1, r1.2 ++ r2.2)

/-- The `switch (term.key)` body for a single term. -/
def walkTerm (ne : Bool) (st : WalkState) : SearchTerm → WalkState × List Cond
  | .all =>
    (if ne then st else { st with hasAll := true }, [])
  | .tnot value => walkQuery (!ne) st value
  | .tor value =>
    let r := walkOrEntries st [] value
    (r.1, [Cond.orCond r.2])
  | .text v =>
    if v != "" && !ne then (st, [.textSearch v]) else ({ st with nothing := true }, [])
  | .body v =>
    if v != "" && !ne then (st, [.textSearch v]) else ({ st with nothing := true }, [])
  | .modseqT v =>
    (st, [if !ne then .modseqGe v else .modseqLt v])
  | .uidSet vs =>
    if vs.length == 0 then
      ({ st with calls := st.calls ++ [⟨[], 0⟩] }, [])
    else
      (st, [if !ne then .uidIn vs else .uidNin vs])
  | .uidOne v =>
    (st, [if !ne then .uidEq v else .uidNe v])
  | .flagT v ex =>
    if v == "\\Seen" || v == "\\Deleted" || v == "\\Flagged" then
      (st, [.boolField (jsLowerSubstr1 v) (if ex then !ne else ne)])
    else if ex then
      (st, [if !ne then .flagsEq v else .flagsNe v])
    else
      (st, [if !ne then .flagsNe v else .flagsEq v])
  | .headerT hdr v =>
    (st, [if v != "" then .headerElem hdr v ne
          else if !ne then .headerKeyEq hdr else .headerKeyNe hdr])
  | .internaldateT op v =>
    (st, [match op with
      | none => .internaldateDay v ne
      | some o => .internaldateCmp o v ne])
  | .headerdateT op v =>
    (st, [match op with
      | none => .headerdateDay v ne
      | some o => .headerdateCmp o v ne])
  | .sizeT op v =>
    (st, [.sizeCond
      (match op with
        | none => .eq
        | some .lt => .lt
        | some .le => .le
        | some .gt => .gt
        | some .ge => .ge) v ne])

/-- The `case 'or'` branch: `parent.push({$or}); entries.forEach(entry =>
walkQuery($or, false, entry))` — every branch pushes into the same `$or`
array, with `ne` reset to `false`. -/
def walkOrEntries (st : WalkState) (acc : List Cond) :
    List (List SearchTerm) → WalkState × List Cond
  | [] => (st, acc)
  | entry :: rest =>
    let r := walkQuery false st entry
    walkOrEntries r.1 (acc ++ r.2) rest

end

/-- Case-insensitive substring test over char lists (semantics of the escaped
case-insensitive `$regex` of the `header` case). -/
def listContainsSub (needle : List Char) : List Char → Bool
  | [] => needle.isEmpty
  | c :: cs => needle.isPrefixOf (c :: cs) || listContainsSub needle cs

def ciContains (hay pat : String) : Bool :=
  listContainsSub (pat.data.map Char.toLower) (hay.data.map Char.toLower)

def condNegate (neg b : Bool) : Bool :=
  if neg then !b else b

def intCmp (o : CmpOp) (x v : Int) : Bool :=
  match o with
  | .lt => decide (x < v)
  | .le => decide (x ≤ v)
  | .gt => decide (v < x)
  | .ge => decide (v ≤ x)

def natCmp (o : MongoCmp) (x v : Nat) : Bool :=
  match o with
  | .eq => x == v
  | .lt => decide (x < v)
  | .le => decide (x ≤ v)
  | .gt => decide (v < x)
  | .ge => decide (v ≤ x)

mutual

/-- Mongo matching semantics for one pushed condition, for a message `m`;
`ftm s` is the external full-text index's verdict for `$text: {$search: s}`
on this document. -/
def condMatches (ftm : String → Bool) (m : Message) : Cond → Bool
  | .orCond bs => condAny ftm m bs
  | .textSearch s => ftm s
  | .modseqGe v => decide (v ≤ m.modseq)
  | .modseqLt v => decide (m.modseq < v)
  | .uidIn vs => vs.contains m.uid
  | .uidNin vs => !(vs.contains m.uid)
  | .uidEq v => m.uid == v
  | .uidNe v => m.uid != v
  | .boolField f b =>
    if f == "seen" then m.seen == b
    else if f == "flagged" then m.flagged == b
    else if f == "deleted" then m.deleted == b
    else false
  | .flagsEq v => m.flags.contains v
  | .flagsNe v => !(m.flags.contains v)
  | .headerElem key pat neg =>
    m.headers.any (fun h =>
      h.1 == key && (if neg then !(ciContains h.2 pat) else ciContains h.2 pat))
  | .headerKeyEq key => m.headers.any (fun h => h.1 == key)
  | .headerKeyNe key => !(m.headers.any (fun h => h.1 == key))
  | .internaldateCmp o v neg => condNegate neg (intCmp o m.internaldate v)
  | .internaldateDay v neg =>
    condNegate neg (decide (v ≤ m.internaldate) && decide (m.internaldate < v + 86400000))
  | .headerdateCmp o v neg => condNegate neg (intCmp o m.headerdate v)
  | .headerdateDay v neg =>
    condNegate neg (decide (v ≤ m.headerdate) && decide (m.headerdate < v + 86400000))
  | .sizeCond o v neg => condNegate neg (natCmp o m.size v)

/-- `$or`: any branch matches. -/
def condAny (ftm : String → Bool) (m : Message) : List Cond → Bool
  | [] => false
  | c :: cs => condMatches ftm m c || condAny ftm m cs

end

/-- `onSearch` over a mailbox with id `mbId`: runs `walkQuery` from the blank
state, then — in source order — either rejects immediately with the empty
result when `nothing` was set, or executes the compiled query
(`{mailbox}` alone when `hasAll`, otherwise `{mailbox, $and: conds}`) and
reports `{uidList, highestModseq}` over the cursor (unsorted, collection
order).  The returned list is every callback invocation the handler makes,
in order — a correct handler would make exactly one. -/
def onSearchRun (ft : Message → String → Bool) (mbId : Nat)
    (msgs : List Message) (criteria : List SearchTerm) : List SearchPayload :=
  let r := walkQuery false ⟨false, false, []⟩ criteria
  let st := r.1
  if st.nothing then
    st.calls ++ [⟨[], 0⟩]
  else
    let matched :=
      if st.hasAll then msgs.filter (fun m => m.mailbox == mbId)
      else msgs.filter (fun m => m.mailbox == mbId && (r.2).all (condMatches (ft m) m))
    st.calls ++
      [⟨matched.map Message.uid,
        matched.foldl (fun h m => if h < m.modseq then m.modseq else h) 0⟩]

/-! ## AUTH (`server.onAuth`, src/imap.js lines 66-103) -/

/-- A document of the `users` collection (fields used by `onAuth`):
`password` is the stored bcrypt hash. -/
structure AuthUser where
  uid : Nat
  username : String
  password : String
deriving DecidableEq, Repr

/-- The value `onAuth` resolves its callback with: the rate-limit error, the
bare `callback()` of both credential-failure paths (no arguments, hence no
distinguishing content), or the session principal. -/
inductive AuthResult where
  | rateLimited
  | noArgs
  | success (id : Nat) (username : String)
deriving DecidableEq, Repr

/-- `server.onAuth`: trim the login username, consult the rate limiter keyed
by `username + ':' + remoteAddress` (a nonzero `timeLeft` rejects without a
database lookup), look the user up by `username`, and compare the password
with `bcrypt.compareSync` (embedded as the oracle `bcryptCompareSync`).
A missing user and a failed comparison both run `return callback();`. -/
def onAuthRun (limiter : String → Nat) (users : List AuthUser)
    (bcryptCompareSync : String → String → Bool)
    (loginUsername loginPassword remoteAddress : String) : AuthResult :=
  let username := jsTrim loginUsername
  if limiter (username ++ ":" ++ remoteAddress) != 0 then
    .rateLimited
  else
    match users.find? (fun u => u.username == username) with
    | none => .noArgs
    | some user =>
      if bcryptCompareSync loginPassword user.password then
        .success user.uid username
      else .noArgs

/-! ## Closed-form descriptions used by the theorems -/

/-- `[start, start+1, ..., start+n-1]`: the uids allocated by `n` consecutive
`$inc {uidNext: 1}` calls starting from `uidNext = start`. -/
def natsFrom (start : Nat) : Nat → List Nat
  | 0 => []
  | n + 1 => start :: natsFrom (start + 1) n

/-- The copies `onCopy` inserts for a cursor, in insertion order: the `k`-th
cursor row becomes a document with `_id = base + cp + k`,
`mailbox = targetId`, `uid = un + k` and `meta.source = 'IMAPCOPY'`,
everything else preserved. -/
def copiesOf (targetId base cp un : Nat) : List Message → List Message
  | [] => []
  | m :: rest =>
    { m with
      mid := base + cp
      mailbox := targetId
      uid := un
      metaSource := "IMAPCOPY" } :: copiesOf targetId base (cp + 1) (un + 1) rest

/-- Default values used with `List.getD` in theorem statements. -/
def dfltDraft : JournalDraft := ⟨"", none, 0, none, 0⟩

def dfltEntry : JournalEntry := ⟨"", none, 0, none, 0, 0⟩

def dfltUpdate : FlagsUpdate := .setAll [] false false false

/-! ## Concrete inputs used by counterexamples and witnesses -/

/-- A message with no flags and all denormalized booleans `false`. -/
def exMsgBlank : Message := ⟨1, 1, 5, 1, [], false, false, false, 100, "IMAP", 0, 0, []⟩

/-- A message already carrying `\Seen`. -/
def exMsgSeen : Message := ⟨1, 1, 5, 1, ["\\Seen"], true, false, false, 100, "IMAP", 0, 0, []⟩

/-- `UID STORE 5 +FLAGS (\Seen)` (not silent). -/
def exStoreAddSeen : StoreUpdate := ⟨[5], .add, ["\\Seen"], false, true, 0⟩

/-- `STORE 5 +FLAGS.SILENT (\Flagged)`. -/
def exStoreAddFlagged : StoreUpdate := ⟨[5], .add, ["\\Flagged"], true, false, 0⟩

/-- `UID STORE 5 (UNCHANGEDSINCE 3) +FLAGS (\Flagged)`. -/
def exStoreUcs3 : StoreUpdate := ⟨[5], .add, ["\\Flagged"], false, true, 3⟩

/-- A message whose `modseq` (10) exceeds the `unchangedSince` value 3. -/
def exMsgModseq10 : Message := ⟨1, 1, 5, 10, [], false, false, false, 100, "IMAP", 0, 0, []⟩

/-- Source messages with uids 7 and 9 for the COPY scenario of spec §8 S5. -/
def exMsg7 : Message := ⟨11, 1, 7, 2, [], false, false, false, 50, "IMAP", 0, 0, []⟩

def exMsg9 : Message := ⟨12, 1, 9, 3, [], false, false, false, 60, "IMAP", 0, 0, []⟩

/-- The destination mailbox `Archive` with `uidNext = 40`. -/
def exArchive : Mailbox := ⟨2, 1, "Archive", 123, 40, 0, []⟩

/-- A message in mailbox 1 with uid 5 and modseq 3, for the SEARCH scenario. -/
def exSearchMsg : Message := ⟨21, 1, 5, 3, [], false, false, false, 10, "IMAP", 0, 0, []⟩

/-- A message whose FETCH body stream will error. -/
def exFetchMsg : Message := ⟨31, 1, 4, 2, [], false, false, false, 70, "IMAP", 0, 0, []⟩

/-- A stored user for the authentication scenario. -/
def exAuthAlice : AuthUser := ⟨1, "alice", "$2a$10$hash"⟩

/-! ## Helper lemmas -/

theorem insertByUid_perm (m : Message) (l : List Message) :
    (insertByUid m l).Perm (m :: l) := by
  induction l with
  | nil => simp [insertByUid]
  | cons x xs ih =>
    simp only [insertByUid]
    split
    · exact List.Perm.refl _
    · exact (ih.cons x).trans (List.Perm.swap m x xs)

theorem sortByUid_perm (l : List Message) : (sortByUid l).Perm l := by
  induction l with
  | nil => simp [sortByUid]
  | cons m ms ih => exact (insertByUid_perm m (sortByUid ms)).trans (ih.cons m)

theorem mem_sortByUid {x : Message} {l : List Message} :
    x ∈ sortByUid l ↔ x ∈ l :=
  (sortByUid_perm l).mem_iff

theorem processStore_responses (sid : Nat) (u : StoreUpdate) (c : List Message) :
    (processStore sid u c).responses =
      if u.silent then [] else
        c.map (fun m => ⟨m.uid, if u.isUid then some m.uid else none,
          (storeMessageResult u.action u.value m).memFlags⟩) := by
  induction c with
  | nil => cases hs : u.silent <;> simp [processStore, hs]
  | cons m rest ih => cases hs : u.silent <;> simp [processStore, hs, ih]

theorem processStore_updates (sid : Nat) (u : StoreUpdate) (c : List Message) :
    (processStore sid u c).updates =
      (c.filter (fun m => (storeMessageResult u.action u.value m).updated)).map
        (fun m => (m.mid,
          (storeMessageResult u.action u.value m).flagsupdate.getD dfltUpdate)) := by
  induction c with
  | nil => simp [processStore]
  | cons m rest ih =>
    cases hu : (storeMessageResult u.action u.value m).updated <;>
      simp [processStore, hu, ih, List.filter_cons, dfltUpdate]

theorem processStore_notify (sid : Nat) (u : StoreUpdate) (c : List Message) :
    (processStore sid u c).notify =
      (c.filter (fun m => (storeMessageResult u.action u.value m).updated)).map
        (fun m => ⟨"FETCH", some sid, m.uid,
          some (storeMessageResult u.action u.value m).memFlags, m.mid⟩) := by
  induction c with
  | nil => simp [processStore]
  | cons m rest ih =>
    cases hu : (storeMessageResult u.action u.value m).updated <;>
      simp [processStore, hu, ih, List.filter_cons]

theorem addEntriesModel_fst (mi : Nat) (ds : List JournalDraft) :
    (addEntriesModel mi ds).1 = mi + ds.length := by
  induction ds generalizing mi with
  | nil => simp [addEntriesModel]
  | cons d ds ih => simp [addEntriesModel, ih]; omega

theorem addEntriesModel_snd_length (mi : Nat) (ds : List JournalDraft) :
    (addEntriesModel mi ds).2.length = ds.length := by
  induction ds generalizing mi with
  | nil => simp [addEntriesModel]
  | cons d ds ih => simp [addEntriesModel, ih]

theorem addEntriesModel_snd_getD (mi : Nat) (ds : List JournalDraft) (k : Nat)
    (hk : k < ds.length) :
    (addEntriesModel mi ds).2.getD k dfltEntry =
      (ds.getD k dfltDraft).withModseq (mi + k + 1) := by
  induction ds generalizing mi k with
  | nil => simp at hk
  | cons d ds ih =>
    cases k with
    | zero => simp [addEntriesModel]
    | succ k =>
      have hk' : k < ds.length := by simpa using hk
      have h := ih (mi + 1) k hk'
      simp only [addEntriesModel, List.getD_cons_succ]
      rw [h]
      have : mi + 1 + k + 1 = mi + (k + 1) + 1 := by omega
      rw [this]

theorem addEntriesModel_modseq_bounds (mi : Nat) (ds : List JournalDraft) :
    ∀ e ∈ (addEntriesModel mi ds).2, mi < e.modseq ∧ e.modseq ≤ mi + ds.length := by
  induction ds generalizing mi with
  | nil => simp [addEntriesModel]
  | cons d ds ih =>
    intro e he
    simp only [addEntriesModel, List.mem_cons] at he
    rcases he with rfl | he
    · simp [JournalDraft.withModseq]
    · have h := ih (mi + 1) e he
      constructor
      · omega
      · have := h.2; simp only [List.length_cons]; omega

theorem copyLoop_spec (tid base : Nat) (c : List Message) :
    ∀ (sAcc dAcc : List Nat) (un cp stg : Nat) (ins : List Message)
      (jn : List JournalDraft),
    copyLoop tid base sAcc dAcc un cp stg ins jn c =
      ⟨(c.map Message.uid).reverse ++ sAcc,
        (natsFrom un c.length).reverse ++ dAcc,
        un + c.length,
        cp + c.length,
        stg + (c.map Message.size).sum,
        ins ++ copiesOf tid base cp un c,
        jn ++ (copiesOf tid base cp un c).map
          (fun cm => ⟨"EXISTS", none, cm.uid, none, cm.mid⟩)⟩ := by
  induction c with
  | nil =>
    intro sAcc dAcc un cp stg ins jn
    simp [copyLoop, natsFrom, copiesOf]
  | cons m rest ih =>
    intro sAcc dAcc un cp stg ins jn
    simp only [copyLoop]
    rw [ih]
    simp only [CopyLoopOut.mk.injEq, List.map_cons, List.length_cons, natsFrom,
      copiesOf, List.reverse_cons, List.append_assoc, List.cons_append,
      List.nil_append, List.sum_cons, true_and, and_true]
    omega

theorem expungeLoop_count (sid : Nat) (silent : Bool) (c : List Message) :
    (expungeLoop sid silent c).deletedMessages = c.length := by
  induction c with
  | nil => simp [expungeLoop]
  | cons m rest ih => simp [expungeLoop, ih]

theorem expungeLoop_storage (sid : Nat) (silent : Bool) (c : List Message) :
    (expungeLoop sid silent c).deletedStorage = (c.map Message.size).sum := by
  induction c with
  | nil => simp [expungeLoop]
  | cons m rest ih => simp [expungeLoop, ih]

theorem expungeLoop_journal (sid : Nat) (silent : Bool) (c : List Message) :
    (expungeLoop sid silent c).journal =
      c.map (fun m => ⟨"EXPUNGE", some sid, m.uid, none, m.mid⟩) := by
  induction c with
  | nil => simp [expungeLoop]
  | cons m rest ih => simp [expungeLoop, ih]

theorem processFetch_notify (sid : Nat) (mas : Bool) (errs : Nat → Bool)
    (c : List Message) :
    ∀ d ∈ (processFetch sid mas errs c).notify, d.ignore = some sid := by
  induction c with
  | nil => simp [processFetch]
  | cons m rest ih =>
    intro d hd
    by_cases he : errs m.uid = true
    · simp [processFetch, he] at hd
    · simp only [processFetch, if_neg he] at hd
      rcases List.mem_append.mp hd with h1 | h2
      · split at h1
        · rw [List.mem_singleton.mp h1]
        · cases h1
      · exact ih d h2

theorem getD_map_of_lt {α β : Type} (f : α → β) (l : List α) (k : Nat)
    (h : k < l.length) (d : α) (d2 : β) :
    (l.map f).getD k d2 = f (l.getD k d) := by
  induction l generalizing k with
  | nil => simp at h
  | cons x xs ih =>
    cases k with
    | zero => simp
    | succ k => simpa using ih k (by simpa using h)

/-! ## Claim theorems -/

/-- C1: For every STORE / UID STORE invocation and every matched message whose
flag set changed, the handler assigns a fresh modseq obtained by atomically
incrementing `mailbox.modifyIndex`, persists that modseq together with the new
flags and denormalized booleans, and the FETCH journal entry it appends
carries the uid, the new flags, and that modseq.

Over any cursor of matched messages: (1) the journal drafts are exactly one
`FETCH` draft per changed message, in cursor order, carrying
`ignore = session.id`, the message's uid and its new in-memory flags; (2) the
queued `bulkWrite` entries persist, for exactly those messages, the flag
change together with its denormalized-boolean `$set`; (3) the modelled
notifier leaves `modifyIndex` at its old value plus the number of changed
messages; (4) the `k`-th journal entry is the `k`-th draft stamped with
`modifyIndex + k + 1`; (5) every stamped modseq is fresh
(`> modifyIndex`) and no larger than the final `modifyIndex`, so the values
are exactly the atomic increments; (6) the notifier's message write persists
onto the changed message the same fresh modseq its journal entry carries. -/
theorem onStore_fresh_modseq_and_journal (sid mi : Nat) (u : StoreUpdate)
    (cursor : List Message) :
    (processStore sid u cursor).notify =
      (cursor.filter (fun m => (storeMessageResult u.action u.value m).updated)).map
        (fun m => ⟨"FETCH", some sid, m.uid,
          some (storeMessageResult u.action u.value m).memFlags, m.mid⟩) ∧
    (processStore sid u cursor).updates =
      (cursor.filter (fun m => (storeMessageResult u.action u.value m).updated)).map
        (fun m => (m.mid,
          (storeMessageResult u.action u.value m).flagsupdate.getD dfltUpdate)) ∧
    (addEntriesModel mi (processStore sid u cursor).notify).1 =
      mi + (processStore sid u cursor).notify.length ∧
    (∀ k, k < (processStore sid u cursor).notify.length →
      (addEntriesModel mi (processStore sid u cursor).notify).2.getD k dfltEntry =
        ((processStore sid u cursor).notify.getD k dfltDraft).withModseq
          (mi + k + 1)) ∧
    (∀ e ∈ (addEntriesModel mi (processStore sid u cursor).notify).2,
      mi < e.modseq ∧
        e.modseq ≤ mi + (processStore sid u cursor).notify.length) ∧
    (∀ k, k < (processStore sid u cursor).notify.length →
      (notifierModseqWrites
          (addEntriesModel mi (processStore sid u cursor).notify).2).getD k (0, 0) =
        (((processStore sid u cursor).notify.getD k dfltDraft).message,
          mi + k + 1)) := by
  refine ⟨processStore_notify sid u cursor, processStore_updates sid u cursor,
    addEntriesModel_fst mi _, addEntriesModel_snd_getD mi _, ?_, ?_⟩
  · exact addEntriesModel_modseq_bounds mi _
  · intro k hk
    have hlen : k < (addEntriesModel mi (processStore sid u cursor).notify).2.length := by
      rw [addEntriesModel_snd_length]; exact hk
    unfold notifierModseqWrites
    rw [getD_map_of_lt _ _ k hlen dfltEntry, addEntriesModel_snd_getD mi _ k hk]
    rfl

/-- C1 witness: `STORE 5 +FLAGS.SILENT (\Flagged)` on a message without that
flag, at `modifyIndex = 10`: the single journal entry is the handler's draft
stamped with the fresh modseq 11, i.e.
`{command: FETCH, ignore: 3, uid: 5, flags: [\Flagged], message: 1, modseq: 11}`. -/
theorem onStore_fresh_modseq_and_journal_witness :
    (addEntriesModel 10 (processStore 3 exStoreAddFlagged [exMsgBlank]).notify).2.getD 0
        dfltEntry =
      ⟨"FETCH", some 3, 5, some ["\\Flagged"], 1, 11⟩ := by
  have h := (onStore_fresh_modseq_and_journal 3 10 exStoreAddFlagged
    [exMsgBlank]).2.2.2.1 0 (by decide)
  rw [h]
  decide

/-- C2: the claim states that after any STORE action the persisted
denormalized booleans satisfy `seen ≡ (\Seen ∈ flags)` (and likewise for
`flagged`/`deleted`), in particular when two or three system flags are
changed in one command.  The code violates this: in the `add` branch each of
the three `if (newFlags.includes(...))` bodies assigns a fresh object to
`flagsupdate.$set`, overwriting the previous one, so
`STORE +FLAGS (\Seen \Flagged)` on a message with no flags persists
`$set {flagged: true}` only.  Evaluating the embedded code at that failing
input: the message is updated, the produced update sets only `flagged`, and
the persisted document ends with `\Seen ∈ flags` but `seen = false`. -/
theorem onStore_add_two_system_flags_breaks_denorm :
    (storeMessageResult .add ["\\Seen", "\\Flagged"] exMsgBlank).updated = true ∧
    (storeMessageResult .add ["\\Seen", "\\Flagged"] exMsgBlank).flagsupdate =
      some (.addTo ["\\Seen", "\\Flagged"] ⟨none, some true, none⟩) ∧
    ((applyUpdate (.addTo ["\\Seen", "\\Flagged"] ⟨none, some true, none⟩)
        exMsgBlank).flags.contains "\\Seen") = true ∧
    (applyUpdate (.addTo ["\\Seen", "\\Flagged"] ⟨none, some true, none⟩)
        exMsgBlank).seen = false := by
  decide

/-- C3 counterexample: the claim states the returned COPYUID data pairs the
source UID list **in ascending order** with the destination UID list in
allocation order (`7,9` with `40,41` in the spec's example).  Copying uids
7 and 9 into `Archive` (`uidNext = 40`) actually returns `sourceUid = [9,7]`
and `destinationUid = [41,40]`: `onCopy` builds both lists with `unshift`,
so they come out in descending order, not ascending. -/
theorem onCopy_copyuid_lists_not_ascending :
    (onCopyRun 1 exArchive 100 [exMsg7, exMsg9] [7, 9]).sourceUid = [9, 7] ∧
    (onCopyRun 1 exArchive 100 [exMsg7, exMsg9] [7, 9]).destinationUid = [41, 40] ∧
    (onCopyRun 1 exArchive 100 [exMsg7, exMsg9] [7, 9]).sourceUid ≠ [7, 9] ∧
    (onCopyRun 1 exArchive 100 [exMsg7, exMsg9] [7, 9]).destinationUid ≠ [40, 41] := by
  decide

/-- C3 (amended): destination UIDs are allocated one at a time by atomic
increment of the destination's `uidNext` (the `k`-th copy, in ascending
source-uid cursor order, receives `uidNext0 + k`, and `uidNext` ends at
`uidNext0 + n`); the returned COPYUID data pairs the source UID list with the
destination UID list position by position, but both lists are accumulated
with `unshift` and therefore come out in *descending* order — the reverse of
the ascending cursor order and of the allocation order respectively (e.g.
copying UIDs 7,9 into a mailbox with `uidNext = 40` yields source list `9,7`
and destination list `41,40`). -/
theorem onCopy_copyuid_pairing_descending (srcId : Nat) (target : Mailbox)
    (base : Nat) (msgs : List Message) (uidSet : List Nat) :
    (onCopyRun srcId target base msgs uidSet).sourceUid =
      ((sortByUid (msgs.filter (fun m =>
        m.mailbox == srcId && uidSet.contains m.uid))).map Message.uid).reverse ∧
    (onCopyRun srcId target base msgs uidSet).destinationUid =
      (natsFrom target.uidNext (sortByUid (msgs.filter (fun m =>
        m.mailbox == srcId && uidSet.contains m.uid))).length).reverse ∧
    (onCopyRun srcId target base msgs uidSet).uidNext =
      target.uidNext + (sortByUid (msgs.filter (fun m =>
        m.mailbox == srcId && uidSet.contains m.uid))).length ∧
    (onCopyRun srcId target base msgs uidSet).inserted =
      copiesOf target.mbid base 0 target.uidNext
        (sortByUid (msgs.filter (fun m =>
          m.mailbox == srcId && uidSet.contains m.uid))) ∧
    (onCopyRun srcId target base msgs uidSet).journal =
      (copiesOf target.mbid base 0 target.uidNext
        (sortByUid (msgs.filter (fun m =>
          m.mailbox == srcId && uidSet.contains m.uid)))).map
        (fun cm => ⟨"EXISTS", none, cm.uid, none, cm.mid⟩) ∧
    (onCopyRun srcId target base msgs uidSet).uidValidity = target.uidValidity ∧
    (onCopyRun srcId target base msgs uidSet).result = true := by
  simp only [onCopyRun]
  rw [copyLoop_spec]
  simp

/-- C5 counterexample: the claim states a matched message whose flags are
already in the target state produces no untagged FETCH line.  Running the
non-silent `UID STORE 5 +FLAGS (\Seen)` over a message that already carries
`\Seen`: the per-message block reports no change (`updated = false`, no
update entry, no journal draft), yet the handler still writes the untagged
FETCH line — the write at lines 685-691 is outside the `if (updated)` check. -/
theorem onStore_unchanged_message_still_gets_fetch_line :
    (storeMessageResult exStoreAddSeen.action exStoreAddSeen.value exMsgSeen).updated
      = false ∧
    (processStore 7 exStoreAddSeen [exMsgSeen]).responses =
      [⟨5, some 5, ["\\Seen"]⟩] ∧
    (processStore 7 exStoreAddSeen [exMsgSeen]).updates = [] ∧
    (processStore 7 exStoreAddSeen [exMsgSeen]).notify = [] := by
  decide

/-- C5 (amended): during a non-silent STORE, the handler writes one untagged
FETCH response line for *every* matched message, in cursor order, showing the
message's resulting in-memory flags — whether or not the flag set actually
changed; when `silent` is set it writes none. -/
theorem onStore_untagged_fetch_for_all_matched (sid : Nat) (u : StoreUpdate)
    (cursor : List Message) :
    (processStore sid u cursor).responses =
      if u.silent then [] else
        cursor.map (fun m => ⟨m.uid, if u.isUid then some m.uid else none,
          (storeMessageResult u.action u.value m).memFlags⟩) :=
  processStore_responses sid u cursor

theorem storeQueryMatches_mailbox {mbid : Nat} {u : StoreUpdate} {m : Message}
    (h : storeQueryMatches mbid u m = true) : m.mailbox = mbid := by
  unfold storeQueryMatches at h
  split at h
  · simp only [Bool.and_eq_true, beq_iff_eq, decide_eq_true_eq] at h
    exact h.1.1
  · simp only [Bool.and_eq_true, beq_iff_eq] at h
    exact h.1

theorem storeQueryMatches_false_of_gt {mbid : Nat} {u : StoreUpdate} {m : Message}
    (hucs : u.unchangedSince ≠ 0) (hgt : u.unchangedSince < m.modseq) :
    storeQueryMatches mbid u m = false := by
  unfold storeQueryMatches
  rw [if_pos (by simpa using hucs : (u.unchangedSince != 0) = true)]
  have hd : decide (m.modseq ≤ u.unchangedSince) = false := by
    simp only [decide_eq_false_iff_not]
    omega
  simp [hd]

/-- C4 counterexample: the claim states every matched message with
`modseq > unchangedSince` is "reported to the client in a MODIFIED response
code".  Running `UID STORE 5 (UNCHANGEDSINCE 3) +FLAGS (\Flagged)` over a
mailbox whose only message has uid 5 and modseq 10: the query filters the
message out, the cursor is empty, and the handler's entire output is empty —
no response line, no update, no journal draft, and `onStore` has no code path
that emits a `MODIFIED` response code or returns the skipped uids to its
caller (it calls back with the bare status `true`).  The message is therefore
never reported anywhere, refuting the claim. -/
theorem onStore_unchangedSince_no_modified_report :
    sortByUid ([exMsgModseq10].filter (storeQueryMatches 1 exStoreUcs3)) = [] ∧
    processStore 7 exStoreUcs3 (sortByUid ([exMsgModseq10].filter
      (storeQueryMatches 1 exStoreUcs3))) = ⟨[], [], []⟩ := by
  decide

/-- C4 (amended): for every STORE / UID STORE carrying a *nonzero*
`unchangedSince` value `m` (the handler tests the field by JS truthiness, so
`0` is treated as absent and applies no filter), exactly those messages whose
pre-command modseq is `≤ m` and whose UID is in the requested set are
candidates for modification; every matched message with `modseq > m` is left
completely unmodified — but it is *not* reported to the client in a MODIFIED
response code: it appears in no response line, no update and no journal
entry, and the handler returns no record of it.

Formally, over a message store with unique `_id`s and per-mailbox-unique
uids: a matched message with `modseq > unchangedSince` keeps its document
unchanged under the queued writes and appears in no output component, while
a matched message with `modseq ≤ unchangedSince` whose flag set changes under
the action is written and journalled. -/
theorem onStore_unchangedSince_filters (mbid sid : Nat) (u : StoreUpdate)
    (msgs : List Message)
    (hucs : u.unchangedSince ≠ 0)
    (hmid : (msgs.map Message.mid).Nodup)
    (huid : ((msgs.filter (fun x => x.mailbox == mbid)).map Message.uid).Nodup)
    (m : Message) (hm : m ∈ msgs) (hmb : m.mailbox = mbid)
    (hin : m.uid ∈ u.messages) :
    (u.unchangedSince < m.modseq →
      applyOneUpdate (processStore sid u (sortByUid (msgs.filter
          (storeQueryMatches mbid u)))).updates m = m ∧
      m.mid ∉ ((processStore sid u (sortByUid (msgs.filter
          (storeQueryMatches mbid u)))).updates).map Prod.fst ∧
      m.mid ∉ ((processStore sid u (sortByUid (msgs.filter
          (storeQueryMatches mbid u)))).notify).map JournalDraft.message ∧
      m.uid ∉ ((processStore sid u (sortByUid (msgs.filter
          (storeQueryMatches mbid u)))).responses).map FetchLine.uid) ∧
    (m.modseq ≤ u.unchangedSince →
      (storeMessageResult u.action u.value m).updated = true →
      m.mid ∈ ((processStore sid u (sortByUid (msgs.filter
          (storeQueryMatches mbid u)))).updates).map Prod.fst ∧
      m.mid ∈ ((processStore sid u (sortByUid (msgs.filter
          (storeQueryMatches mbid u)))).notify).map JournalDraft.message) := by
  have hcur : ∀ x : Message,
      x ∈ sortByUid (msgs.filter (storeQueryMatches mbid u)) ↔
        x ∈ msgs ∧ storeQueryMatches mbid u x = true := by
    intro x
    rw [mem_sortByUid, List.mem_filter]
  constructor
  · intro hgt
    have hmF : storeQueryMatches mbid u m = false :=
      storeQueryMatches_false_of_gt hucs hgt
    have hnotcur : m ∉ sortByUid (msgs.filter (storeQueryMatches mbid u)) := by
      intro hmem
      rw [hcur m] at hmem
      rw [hmF] at hmem
      exact Bool.false_ne_true hmem.2
    have notinUpd : m.mid ∉ ((processStore sid u (sortByUid (msgs.filter
        (storeQueryMatches mbid u)))).updates).map Prod.fst := by
      rw [processStore_updates]
      intro hmem
      rw [List.map_map] at hmem
      rcases List.mem_map.mp hmem with ⟨x, hx, hxe⟩
      have hx' := List.mem_filter.mp hx
      have hxcur := (hcur x).mp hx'.1
      have hxm : x = m := List.inj_on_of_nodup_map hmid hxcur.1 hm hxe
      rw [hxm] at hxcur
      rw [hmF] at hxcur
      exact Bool.false_ne_true hxcur.2
    have notinNot : m.mid ∉ ((processStore sid u (sortByUid (msgs.filter
        (storeQueryMatches mbid u)))).notify).map JournalDraft.message := by
      rw [processStore_notify]
      intro hmem
      rw [List.map_map] at hmem
      rcases List.mem_map.mp hmem with ⟨x, hx, hxe⟩
      have hx' := List.mem_filter.mp hx
      have hxcur := (hcur x).mp hx'.1
      have hxm : x = m := List.inj_on_of_nodup_map hmid hxcur.1 hm hxe
      rw [hxm] at hxcur
      rw [hmF] at hxcur
      exact Bool.false_ne_true hxcur.2
    refine ⟨?_, notinUpd, notinNot, ?_⟩
    · unfold applyOneUpdate
      have hfind : ((processStore sid u (sortByUid (msgs.filter
          (storeQueryMatches mbid u)))).updates).find? (fun p => p.1 == m.mid)
            = none := by
        rw [List.find?_eq_none]
        intro p hp hbeq
        exact notinUpd (List.mem_map.mpr ⟨p, hp, by simpa using hbeq⟩)
      rw [hfind]
    · rw [processStore_responses]
      cases hs : u.silent
      · simp only [hs, Bool.false_eq_true, if_false]
        intro hmem
        rw [List.map_map] at hmem
        rcases List.mem_map.mp hmem with ⟨x, hx, hxe⟩
        have hxcur := (hcur x).mp hx
        have hxmb : x.mailbox = mbid := storeQueryMatches_mailbox hxcur.2
        have hxf : x ∈ msgs.filter (fun y => y.mailbox == mbid) :=
          List.mem_filter.mpr ⟨hxcur.1, by simpa using hxmb⟩
        have hmf : m ∈ msgs.filter (fun y => y.mailbox == mbid) :=
          List.mem_filter.mpr ⟨hm, by simpa using hmb⟩
        have hxm : x = m := List.inj_on_of_nodup_map huid hxf hmf hxe
        rw [hxm] at hxcur
        rw [hmF] at hxcur
        exact Bool.false_ne_true hxcur.2
      · simp [hs]
  · intro hle hupd
    have hmatch : storeQueryMatches mbid u m = true := by
      unfold storeQueryMatches
      rw [if_pos (by simpa using hucs : (u.unchangedSince != 0) = true)]
      simp [hmb, hle, hin]
    have hmem : m ∈ sortByUid (msgs.filter (storeQueryMatches mbid u)) :=
      (hcur m).mpr ⟨hm, hmatch⟩
    have hmemf : m ∈ (sortByUid (msgs.filter (storeQueryMatches mbid u))).filter
        (fun x => (storeMessageResult u.action u.value x).updated) :=
      List.mem_filter.mpr ⟨hmem, hupd⟩
    constructor
    · rw [processStore_updates, List.map_map]
      exact List.mem_map.mpr ⟨m, hmemf, rfl⟩
    · rw [processStore_notify, List.map_map]
      exact List.mem_map.mpr ⟨m, hmemf, rfl⟩

/-- C4 witness: the matched message with uid 5 and modseq 10 under
`UNCHANGEDSINCE 3` keeps its document unchanged by the queued writes. -/
theorem onStore_unchangedSince_filters_witness :
    applyOneUpdate (processStore 7 exStoreUcs3 (sortByUid ([exMsgModseq10].filter
      (storeQueryMatches 1 exStoreUcs3)))).updates exMsgModseq10 = exMsgModseq10 := by
  exact ((onStore_unchangedSince_filters 1 7 exStoreUcs3 [exMsgModseq10]
    (by decide) (by decide) (by decide) exMsgModseq10 (by decide) (by decide)
    (by decide)).1 (by decide)).1

/-- C6: After an EXPUNGE that deletes a set of messages marked `\Deleted`,
`user.storageUsed` is decremented by exactly the sum of the sizes of the
deleted messages — via exactly one `$inc` operation, and no operation at all
when no message was deleted — the mailbox document (in particular its
`uidNext`) is unchanged, and a failure of the subsequent attachment-blob
sweep does not prevent the command from calling back `(null, true)`:
the run's outcome is literally independent of `sweepFails`. -/
theorem onExpunge_quota_once_uidnext_unchanged_sweep_nonfatal (sid : Nat)
    (silent sweepFails : Bool) (mb : Mailbox) (s0 : Int) (msgs : List Message) :
    (onExpungeRun sid silent sweepFails mb s0 msgs).storageUsedAfter =
      s0 - (((msgs.filter (fun m => m.mailbox == mb.mbid && m.deleted)).map
        Message.size).sum : Int) ∧
    (onExpungeRun sid silent sweepFails mb s0 msgs).quotaOps =
      (if (msgs.filter (fun m => m.mailbox == mb.mbid && m.deleted)).length = 0
        then []
        else [-((((msgs.filter (fun m => m.mailbox == mb.mbid && m.deleted)).map
          Message.size).sum : Nat) : Int)]) ∧
    (onExpungeRun sid silent sweepFails mb s0 msgs).mailboxAfter = mb ∧
    (onExpungeRun sid silent sweepFails mb s0 msgs).result = true ∧
    onExpungeRun sid silent true mb s0 msgs =
      onExpungeRun sid silent false mb s0 msgs := by
  have hperm := sortByUid_perm (msgs.filter (fun m => m.mailbox == mb.mbid && m.deleted))
  have hlen := hperm.length_eq
  have hsum : (((sortByUid (msgs.filter (fun m =>
      m.mailbox == mb.mbid && m.deleted))).map Message.size).sum) =
      (((msgs.filter (fun m => m.mailbox == mb.mbid && m.deleted)).map
        Message.size).sum) :=
    (hperm.map Message.size).sum_eq
  have hstor := expungeLoop_storage sid silent
    (sortByUid (msgs.filter (fun m => m.mailbox == mb.mbid && m.deleted)))
  have hcnt := expungeLoop_count sid silent
    (sortByUid (msgs.filter (fun m => m.mailbox == mb.mbid && m.deleted)))
  refine ⟨?_, ?_, rfl, ?_, ?_⟩
  · simp only [onExpungeRun, hstor, hsum, hcnt, hlen]
    by_cases h0 : (msgs.filter (fun m => m.mailbox == mb.mbid && m.deleted)).length = 0
    · have hnil : msgs.filter (fun m => m.mailbox == mb.mbid && m.deleted) = [] :=
        List.length_eq_zero.mp h0
      simp [hnil]
    · have : ((msgs.filter (fun m => m.mailbox == mb.mbid && m.deleted)).length
        == 0) = false := by simpa using h0
      simp [this]
      omega
  · simp only [onExpungeRun, hstor, hsum, hcnt, hlen]
    by_cases h0 : (msgs.filter (fun m => m.mailbox == mb.mbid && m.deleted)).length = 0
    · simp [h0]
    · have : ((msgs.filter (fun m => m.mailbox == mb.mbid && m.deleted)).length
        == 0) = false := by simpa using h0
      simp [this, h0]
  · simp [onExpungeRun]
  · simp [onExpungeRun]

/-- C7 counterexample: the claim states that when a FETCH body stream errors
mid-response the server writes an untagged BYE line and then destroys the
socket.  Evaluating the handler with a stream error on its only row: the
single raw socket write is `'INTERNAL ERROR\n'`, which is not an untagged BYE
line (it does not begin with `* BYE`); the socket *is* destroyed. -/
theorem onFetch_stream_error_writes_internal_error_not_bye :
    (processFetch 1 false (fun _ => true) [exFetchMsg]).socketWrites =
      ["INTERNAL ERROR\n"] ∧
    ((processFetch 1 false (fun _ => true) [exFetchMsg]).socketWrites.all
      (fun s => spec_isUntaggedBye s == false)) = true ∧
    (processFetch 1 false (fun _ => true) [exFetchMsg]).socketDestroyed = true := by
  decide

/-- C7 (amended): when a FETCH body stream errors mid-response, the server
writes the raw line `INTERNAL ERROR` (not an untagged BYE) to the client
socket and then destroys the socket; the session does not continue after the
torn stream — rows before the erroring one were streamed, the erroring row's
stream was started, no later row is processed, and the loop finishes with
`done(err)` instead of a success callback. -/
theorem onFetch_stream_error_tears_down_connection (sid : Nat) (mas : Bool)
    (errs : Nat → Bool) (pre : List Message) (m : Message) (post : List Message)
    (hpre : ∀ x ∈ pre, errs x.uid = false) (hm : errs m.uid = true) :
    (processFetch sid mas errs (pre ++ m :: post)).socketWrites =
      ["INTERNAL ERROR\n"] ∧
    (processFetch sid mas errs (pre ++ m :: post)).socketDestroyed = true ∧
    (processFetch sid mas errs (pre ++ m :: post)).result = none ∧
    (processFetch sid mas errs (pre ++ m :: post)).streamedUids =
      pre.map Message.uid ++ [m.uid] := by
  induction pre with
  | nil => simp [processFetch, hm]
  | cons x xs ih =>
    have hx : errs x.uid = false := hpre x (List.mem_cons_self x xs)
    have ihh := ih (fun y hy => hpre y (List.mem_cons_of_mem x hy))
    simp only [List.cons_append, processFetch, hx, Bool.false_eq_true, if_false,
      List.append_eq]
    simp [ihh.1, ihh.2.1, ihh.2.2.1, ihh.2.2.2]

/-- C7 witness: one row whose stream errors — the write, the destroy, the
error finish, and the streamed-uid trace, all at a concrete input. -/
theorem onFetch_stream_error_tears_down_connection_witness :
    (processFetch 1 false (fun _ => true) [exFetchMsg]).socketWrites =
      ["INTERNAL ERROR\n"] ∧
    (processFetch 1 false (fun _ => true) [exFetchMsg]).socketDestroyed = true ∧
    (processFetch 1 false (fun _ => true) [exFetchMsg]).result = none ∧
    (processFetch 1 false (fun _ => true) [exFetchMsg]).streamedUids = [4] := by
  have h := onFetch_stream_error_tears_down_connection 1 false (fun _ => true)
    [] exFetchMsg [] (by intro x hx; cases hx) rfl
  simpa using h

/-- C8: the claim states that a SEARCH whose criteria contain a UID term with
an empty set short-circuits to the empty result and yields no other result.
The `return callback({uidList: [], highestModseq: 0})` at lines 1283-1287
only returns from the `node.forEach` lambda, so `walkQuery` continues, the
empty-set term contributes no query condition at all, and the handler then
runs the remaining query and invokes the callback a second time.  Evaluating
`SEARCH ALL UID <empty>` over a mailbox with one message (uid 5, modseq 3):
the handler makes two callback invocations — the empty short-circuit result
followed by a full result containing every message of the mailbox. -/
theorem onSearch_empty_uid_set_double_callback :
    onSearchRun (fun _ _ => false) 1 [exSearchMsg] [.uidSet [], .all] =
      [⟨[], 0⟩, ⟨[5], 3⟩] ∧
    (onSearchRun (fun _ _ => false) 1 [exSearchMsg]
      [.uidSet [], .all]).length = 2 := by
  constructor
  · simp [onSearchRun, walkQuery, walkNode, walkTerm, exSearchMsg]
  · simp [onSearchRun, walkQuery, walkNode, walkTerm, exSearchMsg]

/-- C9: for every authentication attempt allowed past the rate limiter, the
two failure outcomes — username not present in the `users` collection, and
present but bcrypt password mismatch — produce results indistinguishable to
the caller.  Both paths execute the bare `return callback();`, so over any
two stored-user states, one without the trimmed username and one where the
stored hash fails `bcrypt.compareSync`, the handler resolves with the *same*
value, carrying no distinguishing content. -/
theorem onAuth_missing_user_and_bad_password_indistinguishable
    (limiter : String → Nat) (users1 users2 : List AuthUser)
    (cmp1 cmp2 : String → String → Bool) (lu lp ra : String)
    (hallow : limiter (jsTrim lu ++ ":" ++ ra) = 0)
    (h1 : users1.find? (fun u => u.username == jsTrim lu) = none)
    (h2 : ∀ u, users2.find? (fun u => u.username == jsTrim lu) = some u →
      cmp2 lp u.password = false) :
    onAuthRun limiter users1 cmp1 lu lp ra = AuthResult.noArgs ∧
    onAuthRun limiter users2 cmp2 lu lp ra = AuthResult.noArgs ∧
    onAuthRun limiter users1 cmp1 lu lp ra = onAuthRun limiter users2 cmp2 lu lp ra := by
  have e1 : onAuthRun limiter users1 cmp1 lu lp ra = AuthResult.noArgs := by
    simp only [onAuthRun, hallow, bne_self_eq_false, Bool.false_eq_true, if_false, h1]
  have e2 : onAuthRun limiter users2 cmp2 lu lp ra = AuthResult.noArgs := by
    simp only [onAuthRun, hallow, bne_self_eq_false, Bool.false_eq_true, if_false]
    cases hfind : users2.find? (fun u => u.username == jsTrim lu) with
    | none => rfl
    | some u => simp [h2 u hfind]
  exact ⟨e1, e2, by rw [e1, e2]⟩

/-- C9 witness: `alice` absent from one user store and present with a
non-matching hash in another, under a clear rate limiter — both attempts
resolve with the bare invalid-credentials result. -/
theorem onAuth_missing_user_and_bad_password_indistinguishable_witness :
    onAuthRun (fun _ => 0) [] (fun _ _ => false) "alice" "pw" "10.0.0.1" =
      AuthResult.noArgs ∧
    onAuthRun (fun _ => 0) [exAuthAlice] (fun _ _ => false) "alice" "pw" "10.0.0.1" =
      AuthResult.noArgs := by
  have h := onAuth_missing_user_and_bad_password_indistinguishable
    (fun _ => 0) [] [exAuthAlice] (fun _ _ => false) (fun _ _ => false)
    "alice" "pw" "10.0.0.1" rfl rfl (fun u _ => rfl)
  exact ⟨h.1, h.2.1⟩

/-- C10: every `EXISTS` journal entry appended by COPY / UID COPY is created
without an `ignore` field, so under the spec's delivery rule (`deliversTo`)
it is delivered to every session with the destination selected, including
the session that issued the COPY; by contrast, the `FETCH` entries appended
by STORE and by FETCH and the `EXPUNGE` entries appended by EXPUNGE all carry
`ignore = session.id`, so the issuing session never receives them. -/
theorem journal_entry_ignore_fields (sid : Nat) (u : StoreUpdate)
    (storeCursor : List Message) (srcId : Nat) (target : Mailbox) (base : Nat)
    (msgs : List Message) (uidSet : List Nat) (mas : Bool) (errs : Nat → Bool)
    (fetchCursor : List Message) (silent sweepFails : Bool) (mb : Mailbox)
    (s0 : Int) (emsgs : List Message) (anySid : Nat) :
    (((onCopyRun srcId target base msgs uidSet).journal).all
      (fun d => d.ignore == none && deliversTo anySid d.ignore)) = true ∧
    (((processStore sid u storeCursor).notify).all
      (fun d => d.ignore == some sid && !(deliversTo sid d.ignore))) = true ∧
    (((processFetch sid mas errs fetchCursor).notify).all
      (fun d => d.ignore == some sid && !(deliversTo sid d.ignore))) = true ∧
    (((onExpungeRun sid silent sweepFails mb s0 emsgs).journal).all
      (fun d => d.ignore == some sid && !(deliversTo sid d.ignore))) = true := by
  refine ⟨?_, ?_, ?_, ?_⟩
  · rw [List.all_eq_true]
    intro d hd
    have hj : (onCopyRun srcId target base msgs uidSet).journal =
        (copiesOf target.mbid base 0 target.uidNext
          (sortByUid (msgs.filter (fun m =>
            m.mailbox == srcId && uidSet.contains m.uid)))).map
          (fun cm => ⟨"EXISTS", none, cm.uid, none, cm.mid⟩) := by
      simp only [onCopyRun]
      rw [copyLoop_spec]
      simp
    rw [hj] at hd
    rcases List.mem_map.mp hd with ⟨cm, hcm, rfl⟩
    simp [deliversTo]
  · rw [List.all_eq_true]
    intro d hd
    rw [processStore_notify] at hd
    rcases List.mem_map.mp hd with ⟨x, hx, rfl⟩
    simp [deliversTo]
  · rw [List.all_eq_true]
    intro d hd
    have := processFetch_notify sid mas errs fetchCursor d hd
    simp [this, deliversTo]
  · rw [List.all_eq_true]
    intro d hd
    have hj : (onExpungeRun sid silent sweepFails mb s0 emsgs).journal =
        (sortByUid (emsgs.filter (fun m => m.mailbox == mb.mbid && m.deleted))).map
          (fun m => ⟨"EXPUNGE", some sid, m.uid, none, m.mid⟩) := by
      simp only [onExpungeRun]
      exact expungeLoop_journal sid silent _
    rw [hj] at hd
    rcases List.mem_map.mp hd with ⟨x, hx, rfl⟩
    simp [deliversTo]
